import Mathlib

/-!
Verification of the `engine` package (tree-server/script-engine): a Go bridge
between host code and an embedded Lua interpreter (the gopher-lua collaborator).

Shallow embedding:
  * `LValue` models `lua.LValue`, the interpreter's tagged value union; table,
    function and userdata values are references (ids) into side stores, since
    in Go they are pointers into interpreter-owned storage.  Lua numbers are
    IEEE float64 in the collaborator; host `int` and `float64` values are
    embedded exactly into `lua.LNumber` by the marshaller, so we model the
    numeric payload as `Rat`, into which both embed exactly.
  * `Value` is the wrapper struct of `values.go` (src/unnamed/part_000): a
    single field `lval`.
  * `LState` models the interpreter state owned by one `Engine`: the global
    namespace, the value stack (head = top of stack, i.e. index -1), the table
    store, the module preload registry and the loaded-module cache.  Go mutates
    the `lua.LState` in place; here every operation threads the state
    explicitly.  The extra field `log` is instrumentation recording each
    invocation of a registered module loader, used only to state the laziness
    contract of `RegisterModule`.
  * Go methods that can only mutate, never fail, become total Lean functions
    returning the new state; fallible operations return `Except String`, the
    error branch carrying the diagnostic and no values, exactly as the Go code
    returns `nil, err`.

Collaborator primitives (`lua.LVAsString`, `lua.LVAsNumber`, `lua.LVAsBool`,
`lua.LVIsFalse`, stack access, `CallByParam`, `PreloadModule`/require) are
modelled after gopher-lua's documented behaviour; each such definition says so
in its doc comment.
-/

/-- The Lua type tags, modelling `lua.LValueType` (`LTNil`, `LTBool`, ...). -/
inductive LType where
  | nil
  | bool
  | number
  | str
  | function
  | table
  | userdata
deriving DecidableEq, Repr

/-- Models `lua.LValue`: the interpreter's value union.  Tables, functions and
userdata are interpreter-owned heap objects, modelled as ids into side stores;
two `LValue`s are the same datum iff they are equal here, matching Go pointer
equality on the heap cases. -/
inductive LValue where
  | nil
  | bool (b : Bool)
  | number (n : Rat)
  | str (s : String)
  | function (id : Nat)
  | table (id : Nat)
  | userdata (id : Nat)
deriving DecidableEq, Repr

/-- Models `lua.LValue.Type()`: the type tag of a value. -/
def LValue.ltype : LValue → LType
  | .nil => .nil
  | .bool _ => .bool
  | .number _ => .number
  | .str _ => .str
  | .function _ => .function
  | .table _ => .table
  | .userdata _ => .userdata

/-- Models the fragment of gopher-lua's `parseNumber` (used by `LVAsNumber` on
strings) exercised here: an optionally signed decimal integer literal,
surrounding whitespace allowed, parses to its numeric value; anything else
fails.  (The collaborator also accepts fractional and hex literals; no claim
depends on those, only on whether parsing succeeds or fails.) -/
def parseNumber (s : String) : Option Rat :=
  match s.trim.toInt? with
  | some i => some (i : Rat)
  | none => none

/-- Models gopher-lua's `LNumber.String()`: the decimal rendering of a number.
No claim depends on the exact rendering, only on `AsString` being total. -/
def numberToString (n : Rat) : String :=
  if n.den = 1 then toString n.num else toString n

/-- Models `lua.LVAsString`: strings and numbers render to their string form,
every other value yields the empty string. -/
def LVAsString : LValue → String
  | .str s => s
  | .number n => numberToString n
  | _ => ""

/-- Models `lua.LVAsNumber`: numbers pass through, strings are parsed, and
everything else (and every unparseable string) yields `LNumber(0)`. -/
def LVAsNumber : LValue → Rat
  | .number n => n
  | .str s =>
    match parseNumber s with
    | some n => n
    | none => 0
  | _ => 0

/-- Models `lua.LVAsBool`: `false` exactly on `LNil` and `LFalse`, `true` on
every other value (Lua truthiness). -/
def LVAsBool : LValue → Bool
  | .nil => false
  | .bool b => b
  | _ => true

/-- Models `lua.LVIsFalse`: true exactly on `LNil` and `LFalse`. -/
def LVIsFalse : LValue → Bool
  | .nil => true
  | .bool false => true
  | _ => false

/-- `Value` (part_000): the wrapper struct holding a single `lua.LValue`. -/
structure Value where
  lval : LValue
deriving DecidableEq, Repr

/-- `newValue` (part_000): wraps an `LValue`. -/
def newValue (val : LValue) : Value :=
  ⟨val⟩

/-- Modelled from the spec: the process-wide canonical nil-representative
`Value`.  Its defining file is not among the provided sources (part_000 calls
`LuaNil()`), and spec section 9 fixes it as the single canonical nil constant. -/
def LuaNil : Value :=
  newValue .nil

/-- `Value.AsString` (part_000): `lua.LVAsString(v.lval)`. -/
def Value.AsString (v : Value) : String :=
  LVAsString v.lval

/-- `Value.AsFloat` (part_000): `float64(lua.LVAsNumber(v.lval))`. -/
def Value.AsFloat (v : Value) : Rat :=
  LVAsNumber v.lval

/-- `Value.AsNumber` (part_000): alias for `AsFloat`. -/
def Value.AsNumber (v : Value) : Rat :=
  v.AsFloat

/-- `Value.AsBool` (part_000): `lua.LVAsBool(v.lval)`. -/
def Value.AsBool (v : Value) : Bool :=
  LVAsBool v.lval

/-- `Value.IsNil` (part_000): the wrapped value's type tag is `LTNil`. -/
def Value.IsNil (v : Value) : Bool :=
  v.lval.ltype = LType.nil

/-- `Value.IsFalse` (part_000): `lua.LVIsFalse(v.lval)`. -/
def Value.IsFalse (v : Value) : Bool :=
  LVIsFalse v.lval

/-- `Value.IsTrue` (part_000): `!v.IsFalse()`. -/
def Value.IsTrue (v : Value) : Bool :=
  !v.IsFalse

/-- `Value.IsNumber` (part_000). -/
def Value.IsNumber (v : Value) : Bool :=
  v.lval.ltype = LType.number

/-- `Value.IsBool` (part_000). -/
def Value.IsBool (v : Value) : Bool :=
  v.lval.ltype = LType.bool

/-- `Value.IsFunction` (part_000). -/
def Value.IsFunction (v : Value) : Bool :=
  v.lval.ltype = LType.function

/-- `Value.IsString` (part_000). -/
def Value.IsString (v : Value) : Bool :=
  v.lval.ltype = LType.str

/-- `Value.IsTable` (part_000). -/
def Value.IsTable (v : Value) : Bool :=
  v.lval.ltype = LType.table

/-- `Value.isTable` (part_000, unexported guard used by the table helpers):
same test as `IsTable`. -/
def Value.isTable (v : Value) : Bool :=
  v.lval.ltype = LType.table

/-- Models `lua.LTable` (collaborator): an array part plus an associative
part.  The claims only exercise the non-table guard branches of the `Table*`
helpers, so the operations below model the collaborator's contract without its
nil-hole bookkeeping. -/
structure LTable where
  arr : List LValue
  hash : List (LValue × LValue)
deriving DecidableEq, Repr

/-- Modelled from the collaborator: `lua.LTable.Append` appends a non-nil
value after the array part; appending nil is ignored. -/
def LTable.append (t : LTable) (value : LValue) : LTable :=
  if value = .nil then t else { t with arr := t.arr ++ [value] }

/-- Modelled from the collaborator: `lua.LTable.Insert` places a value at a
1-based array position, shifting later entries up. -/
def LTable.insert (t : LTable) (i : Int) (value : LValue) : LTable :=
  if i ≤ 0 then t
  else { t with arr := t.arr.take (i.toNat - 1) ++ value :: t.arr.drop (i.toNat - 1) }

/-- Modelled from the collaborator: `lua.LTable.Remove` deletes the entry at a
1-based array position and returns it, or `LNil` when out of range. -/
def LTable.remove (t : LTable) (pos : Int) : LTable × LValue :=
  if h : 0 < pos ∧ pos.toNat - 1 < t.arr.length then
    ({ t with arr := t.arr.take (pos.toNat - 1) ++ t.arr.drop pos.toNat },
      t.arr.get ⟨pos.toNat - 1, h.2⟩)
  else (t, .nil)

/-- Modelled from the collaborator: `lua.LTable.Len`, the array-part length. -/
def LTable.len (t : LTable) : Int :=
  t.arr.length

/-- Modelled from the collaborator: `lua.LTable.MaxN`, the largest occupied
array index. -/
def LTable.maxN (t : LTable) : Int :=
  t.arr.length

/-- Modelled from the collaborator: the table's entries in iteration order,
array part (keys 1..n) first, then the associative part. -/
def LTable.entries (t : LTable) : List (LValue × LValue) :=
  (List.range t.arr.length).map (fun i => (.number (i + 1 : Nat), t.arr.getD i .nil))
    ++ t.hash

/-- Modelled from the collaborator: `lua.LTable.Next`, stateless cursor
iteration over `entries`: key `nil` starts, each key yields the following
key/value pair, and the pair `(nil, nil)` terminates. -/
def LTable.next (t : LTable) (key : LValue) : LValue × LValue :=
  match key with
  | .nil =>
    match t.entries with
    | [] => (.nil, .nil)
    | e :: _ => e
  | k =>
    match t.entries.dropWhile (fun e => e.1 ≠ k) with
    | _ :: e :: _ => e
    | _ => (.nil, .nil)

/-- The interpreter-owned table heap: table ids to tables.  In Go a `Value`
holds a `*lua.LTable` pointer; here it holds an id into this store, which the
table helpers thread explicitly. -/
def TableStore : Type :=
  List (Nat × LTable)

instance : DecidableEq TableStore :=
  inferInstanceAs (DecidableEq (List (Nat × LTable)))

instance : Repr TableStore :=
  inferInstanceAs (Repr (List (Nat × LTable)))

/-- Dereferences a table id, modelling following the `*lua.LTable` pointer
held by `Value.asTable` (part_000). -/
def TableStore.getTable (ts : TableStore) (id : Nat) : LTable :=
  ((ts.lookup id).getD ⟨[], []⟩)

/-- Updates the table a given id points to. -/
def TableStore.setTable : TableStore → Nat → LTable → TableStore
  | [], id, t => [(id, t)]
  | (id', t') :: rest, id, t =>
    if id' = id then (id, t) :: rest else (id', t') :: TableStore.setTable rest id t

/-- `Value.TableAppend` (part_000): guarded by `isTable`; on a table receiver
appends to the referenced table, otherwise does nothing. -/
def Value.TableAppend (v : Value) (ts : TableStore) (value : Value) : TableStore :=
  match v.lval with
  | .table id => ts.setTable id ((ts.getTable id).append value.lval)
  | _ => ts

/-- `Value.TableForEach` (part_000): guarded by `isTable`; on a table receiver
the callback is invoked once per entry with wrapped key/value Values.  The
model returns the list of (key, value) pairs the callback is invoked on; a
non-table receiver yields no invocations. -/
def Value.TableForEach (v : Value) (ts : TableStore) : List (Value × Value) :=
  match v.lval with
  | .table id => ((ts.getTable id).entries).map (fun e => (newValue e.1, newValue e.2))
  | _ => []

/-- `Value.TableInsert` (part_000): guarded by `isTable`. -/
def Value.TableInsert (v : Value) (ts : TableStore) (i : Int) (value : Value) : TableStore :=
  match v.lval with
  | .table id => ts.setTable id ((ts.getTable id).insert i value.lval)
  | _ => ts

/-- `Value.TableLen` (part_000): the table's length, or the sentinel `-1` on a
non-table receiver. -/
def Value.TableLen (v : Value) (ts : TableStore) : Int :=
  match v.lval with
  | .table id => (ts.getTable id).len
  | _ => -1

/-- `Value.TableMaxN` (part_000): the table's MaxN, or `0` on a non-table
receiver. -/
def Value.TableMaxN (v : Value) (ts : TableStore) : Int :=
  match v.lval with
  | .table id => (ts.getTable id).maxN
  | _ => 0

/-- `Value.TableNext` (part_000): cursor iteration, or the terminal pair
`(LuaNil(), LuaNil())` on a non-table receiver. -/
def Value.TableNext (v : Value) (ts : TableStore) (key : Value) : Value × Value :=
  match v.lval with
  | .table id =>
    let p := (ts.getTable id).next key.lval
    (newValue p.1, newValue p.2)
  | _ => (LuaNil, LuaNil)

/-- `Value.TableRemove` (part_000): removes and returns the entry at `pos`, or
returns `LuaNil()` (store untouched) on a non-table receiver. -/
def Value.TableRemove (v : Value) (ts : TableStore) (pos : Int) : TableStore × Value :=
  match v.lval with
  | .table id =>
    let p := (ts.getTable id).remove pos
    (ts.setTable id p.1, newValue p.2)
  | _ => (ts, LuaNil)

/-- A host value crossing the boundary (Go `interface\x7b\x7d` as used by this
package): a scalar, an already-wrapped `*Value`, or some other host object
that the reflection collaborator wraps as userdata. -/
inductive GoVal where
  | bool (b : Bool)
  | int (i : Int)
  | float (f : Rat)
  | str (s : String)
  | value (v : Value)
  | other (tag : Nat)
deriving DecidableEq, Repr

/-- Associative update: replaces the first binding of the key, or appends a
new one.  Models assignment into a Lua hash table / Go map. -/
def setAssoc {α β : Type} [DecidableEq α] : List (α × β) → α → β → List (α × β)
  | [], k, v => [(k, v)]
  | (k', v') :: rest, k, v =>
    if k' = k then (k, v) :: rest else (k', v') :: setAssoc rest k v

/-- Models the `lua.LState` owned by one `Engine`: global namespace, value
stack (head = top, i.e. Lua index -1), table heap, module preload registry
(loader ids, see `LoaderEnv`), loaded-module cache, an allocation counter for
fresh heap ids, and the `log` instrumentation recording module-loader
invocations (most recent first). -/
structure LState where
  globals : List (String × LValue)
  stack : List LValue
  tables : TableStore
  preload : List (String × Nat)
  loaded : List (String × LValue)
  log : List Nat
  nextId : Nat
deriving DecidableEq, Repr

/-- An `Engine` stores exactly a pointer to a `lua.LState` (engine.go), so the
embedding identifies the two; Go's in-place mutation becomes explicit state
threading. -/
abbrev Engine : Type :=
  LState

/-- Models `luar.New` (the reflection collaborator) on the host values this
package passes it: Go `bool` becomes `LBool`, `int` and `float64` become
`LNumber` (exactly — `LNumber` is a float64 and both embed), `string` becomes
`LString`, and any other host object is wrapped as fresh userdata.  (`ValueFor`
intercepts `*Value` before ever reaching `luar.New`; a `*Value` that did reach
it would be wrapped as userdata like any other struct pointer.) -/
def luarNew (s : LState) : GoVal → LState × LValue
  | .bool b => (s, .bool b)
  | .int i => (s, .number (i : Rat))
  | .float f => (s, .number f)
  | .str t => (s, .str t)
  | .value _ => ({ s with nextId := s.nextId + 1 }, .userdata s.nextId)
  | .other _ => ({ s with nextId := s.nextId + 1 }, .userdata s.nextId)

/-- `Engine.ValueFor` (engine.go): if the argument is already a `*Value` it is
returned unchanged; otherwise `luar.New` wraps it and the result is wrapped in
a new `Value`. -/
def Engine.ValueFor (s : LState) (val : GoVal) : LState × Value :=
  match val with
  | .value v => (s, v)
  | x =>
    let p := luarNew s x
    (p.1, newValue p.2)

/-- Models `lua.LState.GetGlobal`: the binding in the global namespace, or
`LNil` when the name is absent. -/
def LState.getGlobal (s : LState) (name : String) : LValue :=
  (s.globals.lookup name).getD .nil

/-- `Engine.SetGlobal` (engine.go): marshal via `ValueFor`, then bind the
name in the global namespace. -/
def Engine.SetGlobal (s : LState) (name : String) (val : GoVal) : LState :=
  let p := Engine.ValueFor s val
  { p.1 with globals := setAssoc p.1.globals name p.2.lval }

/-- `Engine.GetGlobal` (engine.go): wrap whatever the state's global lookup
returns (`LNil` for an absent name); total, no error path. -/
def Engine.GetGlobal (s : LState) (name : String) : Value :=
  newValue (s.getGlobal name)

/-- `Engine.PopArg` (engine.go): `Get(-1)` then `Pop(1)` — returns the top of
the stack (wrapped) and removes exactly that one value.  On an empty stack the
collaborator's `Get(-1)` yields `LNil`. -/
def Engine.PopArg (s : LState) : Value × LState :=
  (newValue (s.stack.headD .nil), { s with stack := s.stack.drop 1 })

/-- `Engine.PushRet` (engine.go): marshal via `ValueFor`, then push one value
onto the stack. -/
def Engine.PushRet (s : LState) (val : GoVal) : LState :=
  let p := Engine.ValueFor s val
  { p.1 with stack := p.2.lval :: p.1.stack }

/-- Modelled from the spec (section 4.3): when the interpreter invokes a
registered host function with arguments `(a, b, ...)`, it has already pushed
them onto the stack in order, most-recent (rightmost) argument on top. -/
def invokeHostCall (s : LState) (args : List LValue) : LState :=
  { s with stack := args.reverse ++ s.stack }

/-- The parameter-marshalling loop of `Engine.Call` (engine.go): each
parameter through `ValueFor`, collecting the underlying `LValue`s. -/
def marshalParams (s : LState) : List GoVal → LState × List LValue
  | [] => (s, [])
  | x :: xs =>
    let p := Engine.ValueFor s x
    let q := marshalParams p.1 xs
    (q.1, p.2.lval :: q.2)

/-- The behaviour of script functions, defunctionalized: each function id is
mapped to the list of values the function returns (first return value first).
This models the script side of `CallByParam`, which is collaborator code. -/
def FnEnv : Type :=
  Nat → List LValue

/-- Models `lua.LState.CallByParam` with `Protect: true` and `NRet = nret`:
calling a non-function value fails with the collaborator's diagnostic and
leaves no results; calling a function pushes exactly `nret` results onto the
stack — the function's returns in order, first return deepest, truncated or
padded with `LNil` to `nret` — and returns no error. -/
def CallByParam (fenv : FnEnv) (s : LState) (fn : LValue) (nret : Nat)
    (args : List LValue) : Except String LState :=
  match fn with
  | .function id =>
    let rets := fenv id
    let adjusted := rets.take nret ++ List.replicate (nret - rets.length) LValue.nil
    .ok { s with stack := adjusted.reverse ++ s.stack }
  | _ => .error "attempt to call a non-function object"

/-- `Engine.Call` (engine.go): marshal the parameters, `CallByParam` on the
global bound to `name`; on error return it (and no values, as the Go code
returns `nil, err`); on success build the result slice by reading `Get(-1)` —
the top of the stack — once per slot *without popping in between* (the loop
body of engine.go lines 208-210 reads index -1 every iteration), then
`Pop(retCount)`. -/
def Engine.Call (fenv : FnEnv) (s : LState) (name : String) (retCount : Nat)
    (params : List GoVal) : Except String (LState × List Value) :=
  let m := marshalParams s params
  match CallByParam fenv m.1 (m.1.getGlobal name) retCount m.2 with
  | .error e => .error e
  | .ok s2 =>
    let retVals := List.replicate retCount (newValue (s2.stack.headD .nil))
    .ok ({ s2 with stack := s2.stack.drop retCount }, retVals)

/-- Host module loaders (`func(*Engine) *Value`), defunctionalized: an
environment resolving loader ids to their behaviour on the state. -/
def LoaderEnv : Type :=
  Nat → LState → LState × Value

/-- Invoking `loadFn` on the engine: the invocation is recorded in the `log`
instrumentation, then the loader runs. -/
def invokeLoader (env : LoaderEnv) (id : Nat) (s : LState) : LState × Value :=
  env id { s with log := id :: s.log }

/-- The closure built inside `Engine.RegisterModule` (engine.go): wrap the
state in an engine, invoke `loadFn`, push its result with `PushRet`, and
return the count `1`. -/
def moduleLoader (env : LoaderEnv) (id : Nat) (s : LState) : LState × Nat :=
  let p := invokeLoader env id s
  (Engine.PushRet p.1 (.value p.2), 1)

/-- `Engine.RegisterModule` (engine.go): hand the wrapped loader to the
collaborator's `PreloadModule`, which only records it in the preload registry
— `loadFn` is not invoked here. -/
def Engine.RegisterModule (s : LState) (name : String) (loaderId : Nat) : LState :=
  { s with preload := setAssoc s.preload name loaderId }

/-- Modelled from the spec (sections 4.2 and 6): the collaborator's require
mechanism.  A name already in the loaded-module cache returns the cached value
without invoking anything; otherwise the preloaded `moduleLoader` runs, its
single pushed result is taken off the stack, cached, and returned; a name
never registered yields `LNil` (the collaborator actually raises a script
error there — immaterial to the claims, which only concern registered names). -/
def requireMod (env : LoaderEnv) (s : LState) (name : String) : LState × LValue :=
  match s.loaded.lookup name with
  | some v => (s, v)
  | none =>
    match s.preload.lookup name with
    | some id =>
      let p := moduleLoader env id s
      let v := p.1.stack.headD .nil
      ({ p.1 with stack := p.1.stack.drop p.2, loaded := (name, v) :: p.1.loaded }, v)
    | none => (s, .nil)

/-- `Engine.LuaTable` (engine.go): allocate a fresh empty table in the
interpreter's heap and return a `Value` referencing it. -/
def Engine.LuaTable (s : LState) : LState × Value :=
  ({ s with tables := (s.nextId, ⟨[], []⟩) :: s.tables, nextId := s.nextId + 1 },
    newValue (.table s.nextId))

/-! ## Helper lemmas -/

theorem lookup_setAssoc {β : Type} (l : List (String × β)) (k : String) (v : β) :
    (setAssoc l k v).lookup k = some v := by
  induction l with
  | nil => simp [setAssoc]
  | cons p rest ih =>
    obtain ⟨k', v'⟩ := p
    by_cases h : k' = k
    · simp [setAssoc, h]
    · have hk : (k == k') = false := beq_eq_false_iff_ne.mpr (Ne.symm h)
      simp [setAssoc, h, List.lookup, hk, ih]

theorem valueFor_globals (s : LState) (x : GoVal) :
    (Engine.ValueFor s x).1.globals = s.globals := by
  cases x <;> rfl

theorem marshalParams_globals (s : LState) (ps : List GoVal) :
    (marshalParams s ps).1.globals = s.globals := by
  induction ps generalizing s with
  | nil => rfl
  | cons x xs ih =>
    simp only [marshalParams]
    rw [ih, valueFor_globals]

/-! ## The claims -/

/-- Claim C10: for every `Value` `v`, `IsTrue v` is exactly the negation of
`IsFalse v`, and `IsFalse` holds exactly on the nil value and boolean
`false` — the two truthiness predicates partition all Values. -/
theorem isTrue_isFalse_partition (v : Value) :
    v.IsTrue = !v.IsFalse ∧
    (v.IsFalse = true ↔ v.lval = LValue.nil ∨ v.lval = LValue.bool false) := by
  obtain ⟨lv⟩ := v
  refine ⟨rfl, ?_⟩
  match lv with
  | .nil => simp [Value.IsFalse, LVIsFalse]
  | .bool true => simp [Value.IsFalse, LVIsFalse]
  | .bool false => simp [Value.IsFalse, LVIsFalse]
  | .number n => simp [Value.IsFalse, LVIsFalse]
  | .str s => simp [Value.IsFalse, LVIsFalse]
  | .function id => simp [Value.IsFalse, LVIsFalse]
  | .table id => simp [Value.IsFalse, LVIsFalse]
  | .userdata id => simp [Value.IsFalse, LVIsFalse]

/-- Claim C9: `GetGlobal` on a name absent from the global namespace returns a
nil-representative Value (`IsNil` holds).  It never returns an error: in the
source it has no error return at all, mirrored here by its total type
`LState → String → Value`. -/
theorem getGlobal_absent_nil (s : LState) (name : String)
    (h : s.globals.lookup name = none) :
    (Engine.GetGlobal s name).IsNil = true := by
  simp [Engine.GetGlobal, LState.getGlobal, h, newValue, Value.IsNil, LValue.ltype]

def emptyState : LState :=
  ⟨[], [], [], [], [], [], 0⟩

theorem getGlobal_absent_nil_witness :
    emptyState.globals.lookup "x" = none ∧
    (Engine.GetGlobal emptyState "x").IsNil = true :=
  ⟨rfl, getGlobal_absent_nil emptyState "x" rfl⟩

/-- Claim C3: the accessors `AsString`, `AsNumber`, `AsFloat`, `AsBool` are
total — in the source none has an error return or a failure path, mirrored
here by their total types — and on a Value whose type is incompatible with the
requested type they return the typed zero-value fallback: `""` when the value
is neither a string nor a number; `0` when it is neither a number nor a string
(a numeric-looking string is the compatible coercion case); and for `AsBool`,
`false` on nil (every non-nil, non-false value coerces to `true` under the
collaborator's truthiness rules, so nothing else is incompatible). -/
theorem accessors_total_fallback (v : Value) :
    (v.lval.ltype ≠ LType.str → v.lval.ltype ≠ LType.number → v.AsString = "") ∧
    (v.lval.ltype ≠ LType.number → v.lval.ltype ≠ LType.str →
      v.AsNumber = 0 ∧ v.AsFloat = 0) ∧
    (v.lval.ltype = LType.nil → v.AsBool = false) := by
  obtain ⟨lv⟩ := v
  cases lv <;>
    simp [Value.AsString, Value.AsNumber, Value.AsFloat, Value.AsBool,
      LVAsString, LVAsNumber, LVAsBool, LValue.ltype]

theorem accessors_total_fallback_witness :
    (newValue LValue.nil).AsString = "" ∧
    (newValue LValue.nil).AsNumber = 0 ∧
    (newValue LValue.nil).AsBool = false :=
  ⟨(accessors_total_fallback (newValue .nil)).1 (by decide) (by decide),
   ((accessors_total_fallback (newValue .nil)).2.1 (by decide) (by decide)).1,
   (accessors_total_fallback (newValue .nil)).2.2 rfl⟩

/-- Claim C2: every table operation on a Value whose receiver is not a table
is a guarded no-op on the table heap or returns its sentinel result —
`TableAppend`/`TableInsert` leave the heap unchanged, `TableRemove` leaves the
heap unchanged and returns the nil-representative, `TableLen` returns the
sentinel `-1`, `TableMaxN` returns `0`, `TableNext` returns the terminal
`(nil, nil)` pair, and `TableForEach` invokes its callback on no entries.
None of them raises an error: in the source none has an error return or a
panic, mirrored here by their total types. -/
theorem table_ops_non_table_guarded (ts : TableStore) (v x key : Value)
    (i pos : Int) (h : v.isTable = false) :
    v.TableAppend ts x = ts ∧
    v.TableInsert ts i x = ts ∧
    v.TableRemove ts pos = (ts, LuaNil) ∧
    v.TableLen ts = -1 ∧
    v.TableMaxN ts = 0 ∧
    v.TableNext ts key = (LuaNil, LuaNil) ∧
    v.TableForEach ts = [] := by
  obtain ⟨lv⟩ := v
  cases lv <;>
    simp_all [Value.isTable, Value.TableAppend, Value.TableInsert,
      Value.TableRemove, Value.TableLen, Value.TableMaxN, Value.TableNext,
      Value.TableForEach, LValue.ltype]

theorem table_ops_non_table_guarded_witness :
    (newValue (LValue.number 1)).isTable = false ∧
    (newValue (LValue.number 1)).TableLen ([] : TableStore) = -1 ∧
    (newValue (LValue.number 1)).TableNext ([] : TableStore) LuaNil
      = (LuaNil, LuaNil) :=
  ⟨by decide,
   (table_ops_non_table_guarded ([] : TableStore) (newValue (.number 1))
      LuaNil LuaNil 1 1 (by decide)).2.2.2.1,
   (table_ops_non_table_guarded ([] : TableStore) (newValue (.number 1))
      LuaNil LuaNil 1 1 (by decide)).2.2.2.2.2.1⟩

/-- Claim C4: for every scalar host value (bool, int, float, string),
`SetGlobal "v" x` followed by `GetGlobal "v"` on the same Engine yields a
Value whose matching typed accessor returns `x` — exactly for bool and string,
and as the number both `int` and `float64` embed to under the collaborator's
(`LNumber`) representation, which the embedding carries exactly. -/
theorem scalar_global_roundtrip (s : LState) (name : String) :
    (∀ b : Bool,
      (Engine.GetGlobal (Engine.SetGlobal s name (.bool b)) name).AsBool = b) ∧
    (∀ i : Int,
      (Engine.GetGlobal (Engine.SetGlobal s name (.int i)) name).AsNumber = (i : Rat)) ∧
    (∀ f : Rat,
      (Engine.GetGlobal (Engine.SetGlobal s name (.float f)) name).AsNumber = f) ∧
    (∀ t : String,
      (Engine.GetGlobal (Engine.SetGlobal s name (.str t)) name).AsString = t) := by
  refine ⟨fun b => ?_, fun i => ?_, fun f => ?_, fun t => ?_⟩ <;>
    simp [Engine.SetGlobal, Engine.GetGlobal, Engine.ValueFor, luarNew,
      LState.getGlobal, lookup_setAssoc, newValue, Value.AsBool, Value.AsNumber,
      Value.AsFloat, Value.AsString, LVAsBool, LVAsNumber, LVAsString]

/-- Claim C5: inside a host function invoked from script with arguments
`(a, b, c)` — which the interpreter has pushed in order, rightmost on top —
successive `PopArg` calls return `c`, then `b`, then `a`, and each pop removes
exactly one value from the top of the stack. -/
theorem popArg_lifo (s : LState) (a b c : LValue) :
    (Engine.PopArg (invokeHostCall s [a, b, c])).1 = newValue c ∧
    (Engine.PopArg (invokeHostCall s [a, b, c])).2.stack = b :: a :: s.stack ∧
    (Engine.PopArg (Engine.PopArg (invokeHostCall s [a, b, c])).2).1 = newValue b ∧
    (Engine.PopArg (Engine.PopArg (invokeHostCall s [a, b, c])).2).2.stack
      = a :: s.stack ∧
    (Engine.PopArg (Engine.PopArg
        (Engine.PopArg (invokeHostCall s [a, b, c])).2).2).1 = newValue a ∧
    (Engine.PopArg (Engine.PopArg
        (Engine.PopArg (invokeHostCall s [a, b, c])).2).2).2.stack = s.stack := by
  simp [Engine.PopArg, invokeHostCall, newValue]

theorem callByParam_non_function (fenv : FnEnv) (s : LState) (fn : LValue)
    (nret : Nat) (args : List LValue) (h : fn.ltype ≠ LType.function) :
    CallByParam fenv s fn nret args
      = Except.error "attempt to call a non-function object" := by
  cases fn <;> simp_all [CallByParam, LValue.ltype]

/-- Claim C6: `Call` on a name not bound to a callable global — whether the
name is absent (so the global lookup yields nil) or bound to a non-function
value such as a number, a string or nil — returns the collaborator's
descriptive diagnostic as a non-nil error and no Values, and never aborts:
the protected call yields the `.error` branch, which by the translation of
`return nil, err` carries no result slice at all. -/
theorem call_non_callable_global_errors (fenv : FnEnv) (s : LState)
    (name : String) (retCount : Nat) (params : List GoVal)
    (h : (s.getGlobal name).ltype ≠ LType.function) :
    Engine.Call fenv s name retCount params
      = Except.error "attempt to call a non-function object" := by
  have hg : (marshalParams s params).1.getGlobal name = s.getGlobal name := by
    simp [LState.getGlobal, marshalParams_globals]
  simp [Engine.Call, hg,
    callByParam_non_function fenv (marshalParams s params).1 (s.getGlobal name)
      retCount (marshalParams s params).2 h]

def fenvEmpty : FnEnv :=
  fun _ => []

def nonCallableState : LState :=
  ⟨[("g", LValue.number 3)], [], [], [], [], [], 0⟩

theorem call_non_callable_global_errors_witness :
    ((nonCallableState.getGlobal "g").ltype ≠ LType.function ∧
      Engine.Call fenvEmpty nonCallableState "g" 1 []
        = Except.error "attempt to call a non-function object") ∧
    ((emptyState.getGlobal "missing").ltype ≠ LType.function ∧
      Engine.Call fenvEmpty emptyState "missing" 2 []
        = Except.error "attempt to call a non-function object") :=
  ⟨⟨by decide,
    call_non_callable_global_errors fenvEmpty nonCallableState "g" 1 [] (by decide)⟩,
   ⟨by decide,
    call_non_callable_global_errors fenvEmpty emptyState "missing" 2 [] (by decide)⟩⟩

/-- Claim C7: `ValueFor` is idempotent — applying `ValueFor` to the `Value`
produced by a previous `ValueFor` passes it through unchanged (same underlying
datum, no re-wrapping, no state change). -/
theorem valueFor_idempotent (s : LState) (x : GoVal) :
    Engine.ValueFor (Engine.ValueFor s x).1 (GoVal.value (Engine.ValueFor s x).2)
      = Engine.ValueFor s x :=
  rfl

/-- Claim C8: `RegisterModule` never invokes the loader during registration
(the invocation log is untouched); the wrapped loader, when the collaborator
runs it, pushes exactly one result value (the module) and reports the count 1;
a first require of a registered, not-yet-loaded name performs exactly the one
loader invocation recorded by `invokeLoader` and caches the module; and a
second require of the same name returns the cached module with the state —
the log in particular — unchanged, so the loader runs at most once per name
per Engine. -/
theorem registerModule_lazy_once (env : LoaderEnv) (s s' : LState)
    (name : String) (id : Nat)
    (hloaded : s.loaded.lookup name = none)
    (hpre : s.preload.lookup name = some id) :
    (Engine.RegisterModule s' name id).log = s'.log ∧
    (∀ t : LState, (moduleLoader env id t).2 = 1 ∧
      (moduleLoader env id t).1.stack
        = (invokeLoader env id t).2.lval :: (invokeLoader env id t).1.stack) ∧
    (requireMod env s name).1.log = (invokeLoader env id s).1.log ∧
    (requireMod env s name).1.loaded.lookup name
      = some (invokeLoader env id s).2.lval ∧
    requireMod env (requireMod env s name).1 name
      = ((requireMod env s name).1, (invokeLoader env id s).2.lval) := by
  refine ⟨rfl, fun t => ⟨rfl, rfl⟩, ?_, ?_, ?_⟩ <;>
    simp [requireMod, hloaded, hpre, moduleLoader, invokeLoader,
      Engine.PushRet, Engine.ValueFor]

def witnessEnv : LoaderEnv :=
  fun _ s => (s, newValue (LValue.number 42))

def moduleState : LState :=
  ⟨[], [], [], [("m", 7)], [], [], 0⟩

theorem registerModule_lazy_once_witness :
    moduleState.loaded.lookup "m" = none ∧
    moduleState.preload.lookup "m" = some 7 ∧
    (Engine.RegisterModule moduleState "m" 7).log = moduleState.log ∧
    (requireMod witnessEnv moduleState "m").1.log
      = (invokeLoader witnessEnv 7 moduleState).1.log ∧
    requireMod witnessEnv (requireMod witnessEnv moduleState "m").1 "m"
      = ((requireMod witnessEnv moduleState "m").1,
          (invokeLoader witnessEnv 7 moduleState).2.lval) :=
  ⟨rfl, rfl,
   (registerModule_lazy_once witnessEnv moduleState moduleState "m" 7 rfl rfl).1,
   (registerModule_lazy_once witnessEnv moduleState moduleState "m" 7 rfl rfl).2.2.1,
   (registerModule_lazy_once witnessEnv moduleState moduleState "m" 7 rfl rfl).2.2.2.2⟩

def bugState : LState :=
  ⟨[("f", LValue.function 0)], [], [], [], [], [], 0⟩

def bugFnEnv : FnEnv :=
  fun _ => [.number 10, .number 20]

/-- Claim C1 (refuted — code bug): with `"f"` bound to a script function
returning `(10, 20)`, `Call "f" 2` succeeds with a slice of length 2, but the
slice is `[20, 20]`, not the claimed `[10, 20]`: the result loop of engine.go
reads `Get(-1)` — the top of the stack, i.e. the *last* return value — once
per slot without popping in between, so every slot receives the same top value
and the returns in order (first return at index 0, nils beyond) are lost. -/
theorem call_result_order_bug :
    Engine.Call bugFnEnv bugState "f" 2 []
      = Except.ok (bugState,
          [newValue (LValue.number 20), newValue (LValue.number 20)]) ∧
    [newValue (LValue.number 20), newValue (LValue.number 20)]
      ≠ [newValue (LValue.number 10), newValue (LValue.number 20)] := by
  exact ⟨rfl, by decide⟩
